import Mathlib

/-!
Verification of the content scraper
(`scripts/scrapers/content_scraper/scraper.py`) of the
Hong-Kong-Fire-Documentary repository.

The Python source is shallowly embedded: pure helpers become Lean
functions over `String` / `List Char`, the stateful scheduler becomes
explicit state passing, and I/O outcomes (network fetches, browser
pages, the durable registry file) are abstracted as explicit oracle
arguments or small inductive state types.  Unicode-specific behaviour
(NFKD normalisation, the unicode extent of the regex classes `\w` and
`\s`) is modelled at the ASCII level: NFKD is the identity on ASCII and
the character classes below are their ASCII restrictions.
-/

namespace Scraper

/-! ## slugify (scraper.py lines 71-80)

```
def slugify(text: str, max_length: int = 80) -> str:
    text = unicodedata.normalize("NFKD", text)
    text = text.lower()
    text = re.sub(r"[^\w\s-]", "", text)
    text = re.sub(r"[-\s]+", "-", text)
    text = text.strip("-")
    if len(text) > max_length:
        text = text[:max_length].rsplit("-", 1)[0]
    return text or "untitled"
```
-/

/-- ASCII restriction of the regex class `\w` (word character:
letter, digit or underscore). -/
def isWordChar (c : Char) : Bool :=
  c.isAlpha || c.isDigit || c = '_'

/-- ASCII restriction of the regex class `\s`. -/
def isSpaceChar (c : Char) : Bool :=
  c = ' ' || c = '\t' || c = '\n' || c = '\x0d' || c = '\x0c' || c = '\x0b'

/-- A character matched by the class `[-\s]` of the second `re.sub`. -/
def isDashOrSpace (c : Char) : Bool :=
  c = '-' || isSpaceChar c

/-- Prepend a hyphen unless the list already starts with one. -/
def consDash (t : List Char) : List Char :=
  if t.head? = some '-' then t else '-' :: t

/-- `re.sub(r"[-\s]+", "-", text)`: every maximal run of hyphen/space
characters is replaced by a single hyphen.  Written as a right fold: a
hyphen/space character merges into an already-collapsed tail that
starts with `-`, so each maximal run contributes exactly one `-`. -/
def collapseRuns : List Char → List Char
  | [] => []
  | c :: rest =>
    if isDashOrSpace c then consDash (collapseRuns rest)
    else c :: collapseRuns rest

/-- `text.strip("-")`: remove leading and trailing hyphens. -/
def stripDashes (l : List Char) : List Char :=
  ((l.dropWhile (· = '-')).reverse.dropWhile (· = '-')).reverse

/-- `text.rsplit("-", 1)[0]`: everything before the last hyphen, the
whole string when it has no hyphen. -/
def beforeLastDash (m : List Char) : List Char :=
  match m.reverse.dropWhile (fun c => !(c = '-')) with
  | [] => m
  | _ :: rest => rest.reverse

/-- The normalisation pipeline of `slugify` before the length cap:
lowercase, drop characters outside `[\w\s-]`, collapse `[-\s]+` runs to
a single `-`, strip edge hyphens.  (NFKD is the identity on the ASCII
fragment modelled here.) -/
def slugCore (text : List Char) : List Char :=
  stripDashes (collapseRuns ((text.map Char.toLower).filter
    (fun c => isWordChar c || isSpaceChar c || c = '-')))

/-- `slugify` (scraper.py line 71). -/
def slugify (text : String) (max_length : Nat := 80) : String :=
  let t := slugCore text.data
  let t := if t.length > max_length then beforeLastDash (t.take max_length) else t
  if t.isEmpty then "untitled" else String.mk t

/-! ## get_domain (scraper.py lines 182-185)

```
def get_domain(url: str) -> str:
    parsed = urlparse(url)
    return parsed.netloc.replace("www.", "")
```

`urlparse(...).netloc` is modelled for the absolute HTTP(S) URLs the
data model admits: the characters between the first `"://"` and the
next `/`, `?` or `#`.  Python's `str.replace("www.", "")` removes every
(left-to-right, non-overlapping) occurrence of the substring `"www."`,
not only a leading one; `removeWWW` mirrors that scan.
-/

/-- Drop everything up to and including the first occurrence of
`"://"`; the empty list when there is none (no-netloc URL). -/
def dropScheme : List Char → List Char
  | [] => []
  | ':' :: '/' :: '/' :: rest => rest
  | _ :: rest => dropScheme rest

/-- The netloc of an absolute URL: characters after `"://"` up to the
first `/`, `?` or `#`. -/
def netlocChars (cs : List Char) : List Char :=
  (dropScheme cs).takeWhile (fun c => !(c = '/' || c = '?' || c = '#'))

/-- `s.replace("www.", "")`: remove every occurrence of `"www."`,
scanning left to right. -/
def removeWWW : List Char → List Char
  | 'w' :: 'w' :: 'w' :: '.' :: rest => removeWWW rest
  | c :: rest => c :: removeWWW rest
  | [] => []

/-- `get_domain` (scraper.py line 182). -/
def get_domain (url : String) : String :=
  String.mk (removeWWW (netlocChars url.data))

example : get_domain "https://www.example.com/a/b" = "example.com" := by decide
example : get_domain "http://sub.www.example.com/x" = "sub.example.com" := by decide
example : slugify "Hello, World!" = "hello-world" := by decide
example : slugify "!!!" = "untitled" := by decide

/-! ## Configuration (scraper.py lines 38-53, 197-205)

`load_config` falls back to defaults `rate_limit = {delay_seconds: 3,
max_retries: 3, timeout_seconds: 60}` and an empty `sites` table.
`get_site_config` overlays the per-domain `sites` entry (keyed by
`get_domain(url)`) over the global `rate_limit` values. -/

structure RateLimit where
  delay_seconds : Nat
  max_retries : Nat
  timeout_seconds : Nat
deriving DecidableEq, Repr

/-- A per-site override block of `config.yml`: each field is optional
and falls back to the global `rate_limit` value. -/
structure SiteOverride where
  delay_seconds : Option Nat := none
  max_retries : Option Nat := none
  timeout_seconds : Option Nat := none
deriving DecidableEq, Repr

structure Config where
  rate_limit : RateLimit
  sites : List (String × SiteOverride)
deriving DecidableEq, Repr

/-- The fallback configuration built into `load_config`
(scraper.py lines 45-53). -/
def defaultConfig : Config :=
  { rate_limit := { delay_seconds := 3, max_retries := 3, timeout_seconds := 60 }
    sites := [] }

/-- `get_site_config` (scraper.py lines 197-205). -/
def get_site_config (url : String) (config : Config) : RateLimit :=
  let domain := get_domain url
  let site := (config.sites.lookup domain).getD {}
  { delay_seconds := site.delay_seconds.getD config.rate_limit.delay_seconds
    max_retries := site.max_retries.getD config.rate_limit.max_retries
    timeout_seconds := site.timeout_seconds.getD config.rate_limit.timeout_seconds }

/-! ## Candidates, registry, partitioner
(scraper.py lines 56-68, 83-137, 176-194, 613-622) -/

/-- A URL candidate produced by the extractor: `{title, url,
source_file}` plus the `source` name attached by `get_all_urls`. -/
structure Candidate where
  url : String
  title : String
  source : String
  source_file : String
deriving DecidableEq, Repr

/-- The value stored under a URL key in `registry["scraped_urls"]`
(scraper.py lines 615-621). -/
structure RegEntry where
  title : String
  source : String
  source_file : String
  scraped_at : String
  archive_path : String
deriving DecidableEq, Repr

/-- `registry["scraped_urls"]`: a Python dict from URL to entry,
modelled as an association list whose keys are unique; insertion
overwrites the entry of an existing key in place. -/
abbrev Reg := List (String × RegEntry)

/-- Python dict membership `url in scraped`. -/
def Reg.containsUrl (r : Reg) (url : String) : Bool :=
  (List.lookup url r).isSome

/-- Python dict assignment `scraped[url] = entry`: overwrite in place
or append a fresh key. -/
def Reg.insert (r : Reg) (url : String) (e : RegEntry) : Reg :=
  match r with
  | [] => [(url, e)]
  | (u, e0) :: rest =>
    if u = url then (u, e) :: rest else (u, e0) :: Reg.insert rest url e

/-- The full registry file shape `{scraped_urls: ..., last_updated: ...}`. -/
structure Registry where
  scraped_urls : Reg
  last_updated : Option String
deriving DecidableEq

/-- The registry returned when no prior state exists
(scraper.py line 61). -/
def emptyRegistry : Registry := { scraped_urls := [], last_updated := none }

/-- Observable state of the durable registry file: absent, present with
content `json.load` accepts, or present but unreadable/malformed (in
which case `json.load` raises `JSONDecodeError`). -/
inductive RegFileState where
  | absent
  | valid (r : Registry)
  | malformed
deriving DecidableEq

/-- `load_registry` (scraper.py lines 56-61):

```
if REGISTRY_FILE.exists():
    with open(REGISTRY_FILE, encoding="utf-8") as f:
        return json.load(f)
return {"scraped_urls": {}, "last_updated": None}
```

There is no `try`/`except`: when the file exists but is malformed the
`json.load` exception propagates, modelled as `Except.error`. -/
def load_registry : RegFileState → Except String Registry
  | .absent => .ok emptyRegistry
  | .valid r => .ok r
  | .malformed => .error "json.decoder.JSONDecodeError"

/-- `filter_new_urls` (scraper.py lines 176-179). -/
def filter_new_urls (urls : List Candidate) (registry : Registry) : List Candidate :=
  urls.filter (fun u => !registry.scraped_urls.containsUrl u.url)

/-- One iteration of `grouped[domain].append(url_info)` on an
insertion-ordered association list (Python's `defaultdict` preserves
first-seen key order). -/
def addToGroup (gs : List (String × List Candidate)) (d : String) (c : Candidate) :
    List (String × List Candidate) :=
  match gs with
  | [] => [(d, [c])]
  | (d0, l) :: rest =>
    if d0 = d then (d0, l ++ [c]) :: rest else (d0, l) :: addToGroup rest d c

/-- `group_urls_by_domain` (scraper.py lines 188-194). -/
def group_urls_by_domain (urls : List Candidate) : List (String × List Candidate) :=
  urls.foldl (fun gs c => addToGroup gs (get_domain c.url) c) []

/-! ## Archive store (scraper.py lines 208-264)

The archive directory of one news source is modelled as an association
list from directory name to the content of its `metadata.json`
(`none` when the directory exists but its metadata file is missing or
unreadable, so `get_existing_archive_url` yields no URL for it). -/

/-- The metadata record written by `save_archive`
(scraper.py lines 253-260); `scraped_at` and `archive_path` are opaque
strings supplied by the caller's environment. -/
structure ArchiveMeta where
  url : String
  title : String
  source : String
  source_file : String
  scraped_at : String
  archive_path : String
deriving DecidableEq, Repr

abbrev Store := List (String × Option ArchiveMeta)

/-- `(archive_dir / name).exists()`. -/
def Store.dirExists (s : Store) (name : String) : Bool :=
  (List.lookup name s).isSome

/-- `get_existing_archive_url` (scraper.py lines 208-217): the `url`
field of the folder's metadata, `None` when the metadata file is
missing or unreadable. -/
def get_existing_archive_url (s : Store) (name : String) : Option String :=
  match List.lookup name s with
  | some (some m) => some m.url
  | _ => none

/-- Create the directory `name` and write `index.html` plus
`metadata.json` into it (scraper.py lines 246-262). -/
def Store.create (s : Store) (name : String) (m : ArchiveMeta) : Store :=
  s ++ [(name, some m)]

/-- The probed directory name `f"{slug}-{counter}"`. -/
def probeName (slug : String) (k : Nat) : String :=
  slug ++ "-" ++ toString k

/-- `str.lower()` at the ASCII level. -/
def strLower (s : String) : String :=
  String.mk (s.data.map Char.toLower)

/-- The metadata written by `save_archive` (scraper.py lines 253-260);
`now` stands for `datetime.now().isoformat()` and `path` for the
directory path recorded as `archive_path`. -/
def mkMeta (info : Candidate) (now path : String) : ArchiveMeta :=
  { url := info.url, title := info.title, source := strLower info.source
    source_file := info.source_file, scraped_at := now, archive_path := path }

/-- The `while (archive_dir / f"{slug}-{counter}").exists()` loop of
`save_archive` (scraper.py lines 237-243), starting at `counter`:
returns the first probed name that stops the loop together with a flag
telling whether it stopped because the metadata URL matched (`true`,
the already-archived case) or because the slot was free (`false`).
The loop consumes one existing directory per iteration, so the fuel
`s.length + 1` supplied by `save_archive` is never exhausted; the
fuel-out value is an arbitrary placeholder. -/
def findSlot (s : Store) (slug url : String) : Nat → Nat → String × Bool
  | 0, counter => (probeName slug counter, false)
  | fuel + 1, counter =>
    if s.dirExists (probeName slug counter) then
      if get_existing_archive_url s (probeName slug counter) = some url then
        (probeName slug counter, true)
      else findSlot s slug url fuel (counter + 1)
    else (probeName slug counter, false)

/-- `save_archive` (scraper.py lines 220-264).  Returns
`((directory, created_new), store)`.  The `index.html` payload is not
represented in the store model; writing a directory is recorded by the
`metadata.json` content it receives. -/
def save_archive (info : Candidate) (html : String) (now : String) (s : Store) :
    (String × Bool) × Store :=
  let slug := slugify info.title
  if s.dirExists slug then
    if get_existing_archive_url s slug = some info.url then
      ((slug, false), s)
    else
      let slot := findSlot s slug info.url (s.length + 1) 1
      if slot.2 then ((slot.1, false), s)
      else ((slot.1, true), s.create slot.1 (mkMeta info now slot.1))
  else
    ((slug, true), s.create slug (mkMeta info now slug))

/-! ## Fetch strategy chain (scraper.py lines 478-571)

`scrape_url_async` selects a strategy by `min(retries, len(strategies)
- 1)`; strategies 0-2 are playwright page loads (differing only in
wait condition / context options, which do not change the control
flow modelled here), strategy 3 is the `requests` fallback, and URLs
on `inmediahk.net` use the single dedicated undetected-chromedriver
strategy.  The outcome of the playwright attempt at retry count `r` is
an oracle value `fetch r`. -/

/-- Outcome of one playwright attempt: the rendered page text, a
failure of `use_context.new_page()` itself (which sits *outside* the
`try` block, line 532), a playwright `TimeoutError`, or any other
exception carrying `str(e)`. -/
inductive Attempt where
  | page (html : String)
  | pageFail
  | timeout
  | error (msg : String)
deriving DecidableEq, Repr

/-- Whether `pat` is an initial segment of the text. -/
def listStartsWith : List Char → List Char → Bool
  | [], _ => true
  | _ :: _, [] => false
  | p :: ps, c :: cs => p = c && listStartsWith ps cs

/-- Python substring containment `pat in text`. -/
def containsSub (pat : List Char) : List Char → Bool
  | [] => pat.isEmpty
  | c :: rest => listStartsWith pat (c :: rest) || containsSub pat rest

/-- `"Download is starting" in error_str` (scraper.py line 558). -/
def containsDownloadMarker (msg : String) : Bool :=
  containsSub "Download is starting".data msg.data

/-- `url.find("inmediahk.net") > -1` (scraper.py line 500). -/
def isInmediaUrl (url : String) : Bool :=
  containsSub "inmediahk.net".data url.data

/-- Observable trace of one `scrape_url_async` call: the final
`(content, ok)` result, the number of fetch attempts performed, the
backoff sleeps (in seconds) between consecutive attempts in order, and
whether the result came from the `requests`/chromedriver fallback (the
strategies that perform no minimum-length check). -/
structure ScrapeTrace where
  content : String
  ok : Bool
  attempts : Nat
  delays : List Nat
  viaFallback : Bool
deriving DecidableEq, Repr

/-- The recursion of `scrape_url_async` (scraper.py lines 478-571),
with the guard `retries < max_retries` expressed through the fuel
`gas = max_retries - retries` (so `gas = 0` exactly when
`retries >= max_retries`; `scrape_url_async` below supplies the fuel
and keeps the two in step).  An uncontained exception
(`new_page()` raising, line 532) is `Except.error`. -/
def scrapeGo (info : Candidate) (fetch : Nat → Attempt) (req uc : String × Bool) :
    Nat → Nat → Except String ScrapeTrace
  | retries, gas =>
    if isInmediaUrl info.url then
      -- strategies = [uc-fallback] only; returned directly, no retry
      .ok ⟨uc.1, uc.2, 1, [], true⟩
    else if min retries 3 = 3 then
      -- strategy 3: requests fallback, returned directly, no retry
      .ok ⟨req.1, req.2, 1, [], true⟩
    else
      match fetch retries with
      | .pageFail => .error "new_page raised"
      | .page html =>
        if html.length < 500 then
          -- `raise ValueError("Page content too short, likely blocked")`
          -- caught by the generic handler; its message has no download
          -- marker, so it escalates like any other soft failure
          match gas with
          | 0 => .ok ⟨"", false, 1, [], false⟩
          | g + 1 =>
            (scrapeGo info fetch req uc (retries + 1) g).map
              (fun tr => ⟨tr.content, tr.ok, tr.attempts + 1, 2 ^ retries :: tr.delays, tr.viaFallback⟩)
        else
          .ok ⟨html, true, 1, [], false⟩
      | .timeout =>
        match gas with
        | 0 => .ok ⟨"", false, 1, [], false⟩
        | g + 1 =>
          (scrapeGo info fetch req uc (retries + 1) g).map
            (fun tr => ⟨tr.content, tr.ok, tr.attempts + 1, 2 ^ retries :: tr.delays, tr.viaFallback⟩)
      | .error msg =>
        if containsDownloadMarker msg then
          -- terminal: "Skipping download URL", no retry
          .ok ⟨"", false, 1, [], false⟩
        else
          match gas with
          | 0 => .ok ⟨"", false, 1, [], false⟩
          | g + 1 =>
            (scrapeGo info fetch req uc (retries + 1) g).map
              (fun tr => ⟨tr.content, tr.ok, tr.attempts + 1, 2 ^ retries :: tr.delays, tr.viaFallback⟩)

/-- `scrape_url_async(url_info, context, config, retries=0, browser)`
(scraper.py line 478). -/
def scrape_url_async (info : Candidate) (config : Config) (fetch : Nat → Attempt)
    (req uc : String × Bool) (retries : Nat := 0) : Except String ScrapeTrace :=
  scrapeGo info fetch req uc retries ((get_site_config info.url config).max_retries - retries)

/-- A playwright attempt outcome that the chain treats as a retryable
(soft) failure: a timeout, a rendered page below the 500-byte
threshold, or any other exception whose message does not announce a
download. -/
def RetryableAttempt : Attempt → Prop
  | .page html => html.length < 500
  | .pageFail => False
  | .timeout => True
  | .error msg => containsDownloadMarker msg = false

/-- `scrape_with_uc_inmedia` (scraper.py lines 434-451) with explicit
accounting of the chromedriver session it launches.  The wait either
locates the article element (carrying its innerHTML) or raises.  The
second component of the result is the number of chromedriver sessions
left open when the function returns: `driver.close()` is executed only
on the success path; the `except` path returns `("", False)` without
closing the driver. -/
def scrape_with_uc_inmedia (wait : Option String) : (String × Bool) × Nat :=
  match wait with
  | some content => ((content, true), 0)
  | none => (("", false), 1)

/-! ## Scheduler (scraper.py lines 574-641, 644-730)

`scrape_domain_queue` walks its URL list sequentially; the per-URL
fetch outcome (the `(html, success)` pair `scrape_url_async` resolves
to) is abstracted as a deterministic oracle `fetch : Candidate →
String × Bool`.  The politeness sleep between requests is guarded by
`urls.index(url_info) < len(urls) - 1`, where `urls.index` is Python's
first-index-of-equal-value lookup. -/

/-- Events a domain queue emits, in order: one `fetchEv` per processed
URL and one `sleepEv` per politeness delay (`delay + random.uniform(0,
1)` seconds; the duration is irrelevant to the claims and not
recorded). -/
inductive Event where
  | fetchEv (url : String)
  | sleepEv
deriving DecidableEq, Repr

/-- Mutable state threaded through the scheduler: the registry, the
archive store, and the `results` dict counters. -/
structure RunState where
  registry : Registry
  store : Store
  success : Nat
  failed : Nat
  failed_urls : List String
deriving DecidableEq

/-- The success test `if success and html:` of the queue body
(scraper.py line 604): the fetch reported `ok` and the content is a
truthy (non-empty) string. -/
def fetchOk (r : String × Bool) : Bool :=
  r.2 && r.1 ≠ ""

/-- The body of the `for url_info in urls` loop of
`scrape_domain_queue` (scraper.py lines 593-635) for one URL:
on success (`if success and html:`) archive the content, record and
persist the registry entry, bump the success counter; otherwise bump
the failure counter and append the URL to `failed_urls`. -/
def processOne (fetch : Candidate → String × Bool) (now : String)
    (st : RunState) (c : Candidate) : RunState :=
  let r := fetch c
  if fetchOk r then
    let saved := save_archive c r.1 now st.store
    let entry : RegEntry :=
      { title := c.title, source := strLower c.source, source_file := c.source_file
        scraped_at := now, archive_path := saved.1.1 }
    { st with
      registry := { scraped_urls := st.registry.scraped_urls.insert c.url entry
                    last_updated := some now }
      store := saved.2
      success := st.success + 1 }
  else
    { st with failed := st.failed + 1, failed_urls := st.failed_urls ++ [c.url] }

/-- The `for` loop of `scrape_domain_queue` over the remaining URLs,
keeping the full queue `urls` at hand for the sleep guard
`urls.index(url_info) < len(urls) - 1` (scraper.py line 638). -/
def queueGo (fetch : Candidate → String × Bool) (now : String) (urls : List Candidate) :
    List Candidate → RunState → RunState × List Event
  | [], st => (st, [])
  | c :: rest, st =>
    let st2 := processOne fetch now st c
    let here :=
      if urls.indexOf c < urls.length - 1 then [Event.fetchEv c.url, Event.sleepEv]
      else [Event.fetchEv c.url]
    let tail := queueGo fetch now urls rest st2
    (tail.1, here ++ tail.2)

/-- `scrape_domain_queue` (scraper.py lines 574-641), returning the
final state and the ordered event trace of its queue. -/
def scrape_domain_queue (fetch : Candidate → String × Bool) (now : String)
    (urls : List Candidate) (st : RunState) : RunState × List Event :=
  queueGo fetch now urls urls st

/-- `run_scraper_async` without dry-run/limit handling (scraper.py
lines 644-730): filter out already-registered URLs, group the rest by
domain, and drive one sequential queue per domain.  The per-domain
tasks run under a cooperative single-threaded event loop; their
interleaving does not affect the per-URL state transitions, modelled
here as the sequential composition of the domain queues in grouping
order. -/
def run_scraper (fetch : Candidate → String × Bool) (now : String)
    (cands : List Candidate) (registry : Registry) (store : Store) : RunState :=
  let new_urls := filter_new_urls cands registry
  let domains := group_urls_by_domain new_urls
  domains.foldl
    (fun st d => (scrape_domain_queue fetch now d.2 st).1)
    { registry := registry, store := store, success := 0, failed := 0, failed_urls := [] }

/-! ## Spec-side definitions used for comparison -/

/-- The partitioner as the specification words it: the domain is the
URL's host component with the `"www."` *prefix* removed, and only that
prefix.  Compared against `get_domain`, which embeds the source's
`netloc.replace("www.", "")`. -/
def get_domain_specced (url : String) : String :=
  let h := netlocChars url.data
  String.mk (if listStartsWith "www.".data h then h.drop 4 else h)

/-- A character the claim allows in a slug besides `-`: a lowercase
word character (lowercase letter, digit or underscore). -/
def isSlugChar (c : Char) : Bool :=
  c.isLower || c.isDigit || c = '_'

/-- No two adjacent hyphens ("single hyphens"). -/
def noTwoDash : Char → Char → Prop := fun a b => ¬(a = '-' ∧ b = '-')

/-- The shape claim C10 requires of a slug: only lowercase word
characters and single hyphens (no two adjacent hyphens), with no
leading or trailing hyphen. -/
def wellFormedSlug (l : List Char) : Prop :=
  (∀ c ∈ l, c = '-' ∨ isSlugChar c = true) ∧
  List.Chain' noTwoDash l ∧
  l.head? ≠ some '-' ∧ l.getLast? ≠ some '-'

/-!
# Theorems
-/

/-! ## C1 — registry corruption handling -/

/-- Claim C1 as stated is refuted: for the durable registry file in the
unreadable/malformed state, `load_registry` does not return the empty
registry; the `json.load` exception propagates (there is no handler in
scraper.py lines 56-61), so corruption is fatal to `load()`. -/
theorem C1_counterexample :
    load_registry RegFileState.malformed ≠ Except.ok emptyRegistry ∧
    load_registry RegFileState.malformed = Except.error "json.decoder.JSONDecodeError" := by
  refine ⟨fun h => ?_, rfl⟩
  simp [load_registry] at h

/-- C1 (amended): `load()` returns the empty registry, without
raising, exactly when no durable registry file exists; a file that is
present but unreadable/malformed makes `load()` raise the parse error
rather than recover. -/
theorem C1_load_amended :
    load_registry RegFileState.absent = Except.ok emptyRegistry ∧
    (∀ r : Registry, load_registry (RegFileState.valid r) = Except.ok r) ∧
    load_registry RegFileState.malformed = Except.error "json.decoder.JSONDecodeError" :=
  ⟨rfl, fun _ => rfl, rfl⟩

/-! ## C5 — domain partition key -/

/-- A list with no occurrence of `"www."` is unchanged by
`removeWWW`. -/
theorem removeWWW_of_not_contains (l : List Char) (h : ¬ ("www.".data <:+: l)) :
    removeWWW l = l := by
  induction l using removeWWW.induct with
  | case1 rest ih => exact absurd ⟨[], rest, rfl⟩ h
  | case2 c rest hne ih =>
    rw [removeWWW.eq_2 c rest hne, ih (fun hinf => h (List.infix_cons hinf))]
  | case3 => rfl

/-- `dropScheme` consumes exactly the `"http://"` prefix. -/
theorem dropScheme_http (l : List Char) :
    dropScheme ('h' :: 't' :: 't' :: 'p' :: ':' :: '/' :: '/' :: l) = l := by
  simp [dropScheme]

/-- `dropScheme` consumes exactly the `"https://"` prefix. -/
theorem dropScheme_https (l : List Char) :
    dropScheme ('h' :: 't' :: 't' :: 'p' :: 's' :: ':' :: '/' :: '/' :: l) = l := by
  simp [dropScheme]

/-- The netloc of an absolute URL does not depend on whether the
scheme is `http` or `https`. -/
theorem netlocChars_scheme_invariant (s : String) :
    netlocChars ("http://" ++ s).data = netlocChars ("https://" ++ s).data := by
  unfold netlocChars
  rw [String.data_append, String.data_append,
    show "http://".data = ['h', 't', 't', 'p', ':', '/', '/'] from rfl,
    show "https://".data = ['h', 't', 't', 'p', 's', ':', '/', '/'] from rfl]
  simp only [List.cons_append, List.nil_append, dropScheme_http, dropScheme_https]

/-- Claim C5 as stated is refuted: `get_domain` embeds
`netloc.replace("www.", "")`, which removes *every* occurrence of the
substring `"www."`, not only a leading one.  On a URL whose host has
`"www."` in the middle, the computed partition key differs from the
spec-described one (`get_domain_specced`, the host with only a
`"www."` prefix removed). -/
theorem C5_counterexample :
    get_domain "http://sub.www.example.com/x" = "sub.example.com" ∧
    get_domain_specced "http://sub.www.example.com/x" = "sub.www.example.com" ∧
    get_domain "http://sub.www.example.com/x" ≠
      get_domain_specced "http://sub.www.example.com/x" := by
  refine ⟨by decide, by decide, by decide⟩

/-- C5 (amended): the partition key is the URL's host with *every*
occurrence of the substring `"www."` removed — in particular a
`"www."` prefix of the host is removed, and a host containing no
`"www."` at all is used verbatim — and two URLs that differ only in
scheme (`http` vs `https`) map to the same domain.  The partitioner is
a pure function of the URL (a Lean `def`), hence deterministic. -/
theorem C5_domain_amended :
    (∀ s : String, get_domain ("http://" ++ s) = get_domain ("https://" ++ s)) ∧
    (∀ h : List Char, removeWWW ('w' :: 'w' :: 'w' :: '.' :: h) = removeWWW h) ∧
    (∀ h : List Char, ¬ ("www.".data <:+: h) → removeWWW h = h) := by
  refine ⟨fun s => ?_, fun h => rfl, removeWWW_of_not_contains⟩
  unfold get_domain
  rw [netlocChars_scheme_invariant]

/-- Witness for the amended C5 at concrete inputs. -/
theorem C5_domain_amended_witness :
    get_domain "http://news.example.org/a" = get_domain "https://news.example.org/a" ∧
    (¬ ("www.".data <:+: "news.example.org".data) ∧
      removeWWW "news.example.org".data = "news.example.org".data) :=
  ⟨C5_domain_amended.1 "news.example.org/a",
    by decide, C5_domain_amended.2.2 "news.example.org".data (by decide)⟩

/-! ## Strategy-chain lemmas shared by C2, C4, C7 -/

/-- One step of the chain on a retryable failure with retry budget
left: sleep `2 ^ retries` seconds and recurse with `retries + 1`. -/
theorem scrapeGo_retry_step (info : Candidate) (fetch : Nat → Attempt) (req uc : String × Bool)
    (r g : Nat) (hpin : isInmediaUrl info.url = false) (hr : min r 3 ≠ 3)
    (hfail : RetryableAttempt (fetch r)) :
    scrapeGo info fetch req uc r (g + 1) =
      (scrapeGo info fetch req uc (r + 1) g).map
        (fun tr => ⟨tr.content, tr.ok, tr.attempts + 1, 2 ^ r :: tr.delays, tr.viaFallback⟩) := by
  rw [scrapeGo]
  cases h : fetch r with
  | page html =>
    rw [h] at hfail
    simp [hpin, hr, hfail, RetryableAttempt] at hfail ⊢
    simp [hfail]
  | pageFail => rw [h] at hfail; exact absurd hfail (by simp [RetryableAttempt])
  | timeout => simp [hpin, hr]
  | error msg =>
    rw [h] at hfail
    simp [RetryableAttempt] at hfail
    simp [hpin, hr, hfail]

/-- With the retry budget exhausted, a retryable failure resolves to
`("", False)` after this single attempt. -/
theorem scrapeGo_retry_exhausted (info : Candidate) (fetch : Nat → Attempt) (req uc : String × Bool)
    (r : Nat) (hpin : isInmediaUrl info.url = false) (hr : min r 3 ≠ 3)
    (hfail : RetryableAttempt (fetch r)) :
    scrapeGo info fetch req uc r 0 = Except.ok ⟨"", false, 1, [], false⟩ := by
  rw [scrapeGo]
  cases h : fetch r with
  | page html =>
    rw [h] at hfail
    simp [RetryableAttempt] at hfail
    simp [hpin, hr, hfail]
  | pageFail => rw [h] at hfail; exact absurd hfail (by simp [RetryableAttempt])
  | timeout => simp [hpin, hr]
  | error msg =>
    rw [h] at hfail
    simp [RetryableAttempt] at hfail
    simp [hpin, hr, hfail]

/-! ## C2 — retry exhaustion with max_retries = 2 -/

/-- Claim C2 as stated is refuted in its jitter conjunct: the claim
says consecutive attempts are separated by `base * 2 ** retry` *plus
jitter*, but the retry path sleeps exactly `2 ** retries` seconds
(scraper.py lines 550 and 564; the only `random.uniform` in the
scheduler is the politeness delay, line 639).  At a domain with
`max_retries = 2` whose attempts all time out, the recorded backoff
delays are exactly `[2 ^ 0 + 0, 2 ^ 1 + 0]` — a deterministic
schedule with nothing added to the exponential term. -/
theorem C2_counterexample :
    scrape_url_async
      { url := "http://a.example/x", title := "T", source := "S", source_file := "f.md" }
      { rate_limit := { delay_seconds := 3, max_retries := 2, timeout_seconds := 60 }
        sites := [] }
      (fun _ => Attempt.timeout) ("", false) ("", false) =
      Except.ok ⟨"", false, 3, [1, 2], false⟩ ∧
    ([1, 2] : List Nat) = [2 ^ 0 + 0, 2 ^ 1 + 0] :=
  ⟨rfl, rfl⟩

/-- C2 (amended): a URL of a domain configured with `max_retries = 2`
whose playwright attempts all fail retryably makes exactly 3 fetch
attempts (initial + 2 retries), is then reported failed, and the
backoff sleeps between consecutive attempts are exactly `2 ^ 0` and
`2 ^ 1` seconds — the deterministic `base * 2 ** retry` schedule
(base 1 s, no jitter), strictly increasing. -/
theorem C2_retry_exhaustion (info : Candidate) (config : Config) (fetch : Nat → Attempt)
    (req uc : String × Bool)
    (hpin : isInmediaUrl info.url = false)
    (hmr : (get_site_config info.url config).max_retries = 2)
    (hfail : ∀ r, RetryableAttempt (fetch r)) :
    scrape_url_async info config fetch req uc =
      Except.ok ⟨"", false, 3, [2 ^ 0, 2 ^ 1], false⟩ ∧
    List.Chain' (· < ·) [2 ^ 0, 2 ^ 1] := by
  refine ⟨?_, List.chain'_pair.mpr (by norm_num)⟩
  unfold scrape_url_async
  rw [hmr]
  rw [show (2 : Nat) - 0 = 1 + 1 from rfl]
  rw [scrapeGo_retry_step info fetch req uc 0 1 hpin (by decide) (hfail 0)]
  rw [show (1 : Nat) = 0 + 1 from rfl]
  rw [scrapeGo_retry_step info fetch req uc 1 0 hpin (by decide) (hfail 1)]
  rw [scrapeGo_retry_exhausted info fetch req uc 2 hpin (by decide) (hfail 2)]
  rfl

/-- Witness for C2: a candidate on `a.example` under a configuration
whose global `max_retries` is 2, with every playwright attempt timing
out. -/
theorem C2_retry_exhaustion_witness :
    (isInmediaUrl "http://a.example/x" = false ∧
      (get_site_config "http://a.example/x"
        { rate_limit := { delay_seconds := 3, max_retries := 2, timeout_seconds := 60 }
          sites := [] }).max_retries = 2) ∧
    scrape_url_async
      { url := "http://a.example/x", title := "T", source := "S", source_file := "f.md" }
      { rate_limit := { delay_seconds := 3, max_retries := 2, timeout_seconds := 60 }
        sites := [] }
      (fun _ => Attempt.timeout) ("", false) ("", false) =
      Except.ok ⟨"", false, 3, [2 ^ 0, 2 ^ 1], false⟩ :=
  ⟨⟨by decide, by decide⟩,
    (C2_retry_exhaustion
      { url := "http://a.example/x", title := "T", source := "S", source_file := "f.md" }
      { rate_limit := { delay_seconds := 3, max_retries := 2, timeout_seconds := 60 }
        sites := [] }
      (fun _ => Attempt.timeout) ("", false) ("", false)
      (by decide) (by decide) (fun _ => trivial)).1⟩

/-! ## C4 — download-triggering failures are terminal -/

/-- Claim C4: a fetch failure whose message announces a download
(`"Download is starting"`) is terminal.  The chain returns
`("", False)` after exactly 1 attempt with no backoff sleep (zero
retries), whatever retry budget the domain still had; and the domain
queue then counts one failure, appends the URL to the failed list, and
leaves the registry (and the archive store) untouched. -/
theorem C4_download_terminal (info : Candidate) (config : Config) (fetch : Nat → Attempt)
    (req uc : String × Bool) (msg : String)
    (hpin : isInmediaUrl info.url = false)
    (hf0 : fetch 0 = Attempt.error msg)
    (hdl : containsDownloadMarker msg = true)
    (fetchQ : Candidate → String × Bool) (now : String) (st : RunState)
    (hq : fetchQ info = ("", false)) :
    scrape_url_async info config fetch req uc = Except.ok ⟨"", false, 1, [], false⟩ ∧
    ((scrape_domain_queue fetchQ now [info] st).1.failed = st.failed + 1 ∧
      (scrape_domain_queue fetchQ now [info] st).1.failed_urls = st.failed_urls ++ [info.url] ∧
      (scrape_domain_queue fetchQ now [info] st).1.registry = st.registry ∧
      (scrape_domain_queue fetchQ now [info] st).1.store = st.store ∧
      (scrape_domain_queue fetchQ now [info] st).1.success = st.success) := by
  constructor
  · have h : ∀ g, scrapeGo info fetch req uc 0 g = Except.ok ⟨"", false, 1, [], false⟩ := by
      intro g
      cases g with
      | zero => rw [scrapeGo]; simp [hpin, hf0, hdl]
      | succ g => rw [scrapeGo]; simp [hpin, hf0, hdl]
    exact h _
  · simp [scrape_domain_queue, queueGo, processOne, hq, fetchOk]

/-- Witness for C4: a PDF-like URL whose first attempt raises the
playwright download error, in a single-URL domain queue. -/
theorem C4_download_terminal_witness :
    (containsDownloadMarker "Download is starting for url http://a.example/f.pdf" = true) ∧
    scrape_url_async
      { url := "http://a.example/f.pdf", title := "T", source := "S", source_file := "f.md" }
      defaultConfig (fun _ => Attempt.error "Download is starting for url http://a.example/f.pdf")
      ("", false) ("", false) = Except.ok ⟨"", false, 1, [], false⟩ ∧
    ((scrape_domain_queue (fun _ => ("", false)) "2026-10-12"
        [{ url := "http://a.example/f.pdf", title := "T", source := "S", source_file := "f.md" }]
        { registry := emptyRegistry, store := [], success := 0, failed := 0, failed_urls := [] }).1.failed
        = 1 ∧
      (scrape_domain_queue (fun _ => ("", false)) "2026-10-12"
        [{ url := "http://a.example/f.pdf", title := "T", source := "S", source_file := "f.md" }]
        { registry := emptyRegistry, store := [], success := 0, failed := 0, failed_urls := [] }).1.failed_urls
        = ["http://a.example/f.pdf"] ∧
      (scrape_domain_queue (fun _ => ("", false)) "2026-10-12"
        [{ url := "http://a.example/f.pdf", title := "T", source := "S", source_file := "f.md" }]
        { registry := emptyRegistry, store := [], success := 0, failed := 0, failed_urls := [] }).1.registry
        = emptyRegistry) := by
  have h := C4_download_terminal
    { url := "http://a.example/f.pdf", title := "T", source := "S", source_file := "f.md" }
    defaultConfig (fun _ => Attempt.error "Download is starting for url http://a.example/f.pdf")
    ("", false) ("", false) "Download is starting for url http://a.example/f.pdf"
    (by decide) rfl (by decide)
    (fun _ => ("", false)) "2026-10-12"
    { registry := emptyRegistry, store := [], success := 0, failed := 0, failed_urls := [] }
    rfl
  exact ⟨by decide, h.1, h.2.1, by simpa using h.2.2.1, h.2.2.2.1⟩

/-! ## C6 — fetcher fault containment and resource release -/

/-- Claim C6 is contradicted by the code on two paths, both shown at a
concrete input.  First, the dedicated `inmediahk.net` chromedriver
strategy (`scrape_with_uc_inmedia`): when the article-element wait
fails, the function does resolve to `("", False)`, but the chromedriver
session it launched is left open — `driver.close()` is only executed
on the success path (scraper.py lines 441-451 have no `finally`).
Second, `use_context.new_page()` sits outside the `try` block
(line 532), so a failure while opening the page escapes
`scrape_url_async` instead of resolving to the result shape. -/
theorem C6_fetcher_leak :
    scrape_with_uc_inmedia none = (("", false), 1) ∧
    scrape_with_uc_inmedia (some "<article>") = (("<article>", true), 0) ∧
    scrape_url_async
      { url := "http://a.example/x", title := "T", source := "S", source_file := "f.md" }
      defaultConfig (fun _ => Attempt.pageFail) ("", false) ("", false) =
      Except.error "new_page raised" :=
  ⟨rfl, rfl, rfl⟩

/-! ## C7 — minimum-content threshold -/

/-- Claim C7 as stated is refuted: the `requests` fallback (strategy 3)
returns `response.text, True` without any minimum-length check
(scraper.py lines 420-431), so after three playwright timeouts under
the default `max_retries = 3` a 2-byte body comes back with
`ok = true`. -/
theorem C7_counterexample :
    scrape_url_async
      { url := "http://a.example/x", title := "T", source := "S", source_file := "f.md" }
      defaultConfig (fun _ => Attempt.timeout) ("hi", true) ("", false) =
      Except.ok ⟨"hi", true, 4, [1, 2, 4], true⟩ ∧
    "hi".length < 500 :=
  ⟨rfl, by decide⟩

/-- The chain only consults the attempt oracle at retry counts at or
above its starting point. -/
theorem scrapeGo_congr (info : Candidate) (fetch fetch2 : Nat → Attempt) (req uc : String × Bool) :
    ∀ g r, (∀ k, r ≤ k → fetch k = fetch2 k) →
      scrapeGo info fetch req uc r g = scrapeGo info fetch2 req uc r g := by
  intro g
  induction g with
  | zero =>
    intro r h
    rw [scrapeGo, scrapeGo, h r le_rfl]
  | succ g ih =>
    intro r h
    rw [scrapeGo, scrapeGo, h r le_rfl,
      ih (r + 1) (fun k hk => h k (Nat.le_of_succ_le hk))]

/-- Any result the chain produces through a playwright strategy (not
the `requests`/chromedriver fallback) with `ok = true` carries at
least 500 bytes of content. -/
theorem scrapeGo_ok_length (info : Candidate) (fetch : Nat → Attempt) (req uc : String × Bool) :
    ∀ g r tr, scrapeGo info fetch req uc r g = Except.ok tr →
      tr.viaFallback = false → tr.ok = true → 500 ≤ tr.content.length := by
  intro g
  induction g with
  | zero =>
    intro r tr h hnf hok
    rw [scrapeGo] at h
    by_cases h1 : isInmediaUrl info.url
    · simp [h1] at h; rw [← h] at hnf; simp at hnf
    · by_cases h2 : min r 3 = 3
      · simp [h1, h2] at h; rw [← h] at hnf; simp at hnf
      · simp [h1, h2] at h
        cases hf : fetch r with
        | page html =>
          rw [hf] at h
          by_cases hlen : html.length < 500
          · simp [hlen] at h; rw [← h] at hok; simp at hok
          · simp [hlen] at h; rw [← h]; exact Nat.le_of_not_lt hlen
        | pageFail => rw [hf] at h; simp at h
        | timeout => rw [hf] at h; simp at h; rw [← h] at hok; simp at hok
        | error msg =>
          rw [hf] at h
          by_cases hdl : containsDownloadMarker msg
          · simp [hdl] at h; rw [← h] at hok; simp at hok
          · simp [hdl] at h; rw [← h] at hok; simp at hok
  | succ g ih =>
    intro r tr h hnf hok
    rw [scrapeGo] at h
    by_cases h1 : isInmediaUrl info.url
    · simp [h1] at h; rw [← h] at hnf; simp at hnf
    · by_cases h2 : min r 3 = 3
      · simp [h1, h2] at h; rw [← h] at hnf; simp at hnf
      · simp [h1, h2] at h
        cases hf : fetch r with
        | page html =>
          rw [hf] at h
          by_cases hlen : html.length < 500
          · simp [hlen, Except.map] at h
            cases hrec : scrapeGo info fetch req uc (r + 1) g with
            | error e => rw [hrec] at h; simp at h
            | ok tr2 =>
              rw [hrec] at h
              simp at h
              rw [← h] at hnf hok ⊢
              exact ih (r + 1) tr2 hrec hnf hok
          · simp [hlen] at h; rw [← h]; exact Nat.le_of_not_lt hlen
        | pageFail => rw [hf] at h; simp at h
        | timeout =>
          rw [hf] at h
          simp [Except.map] at h
          cases hrec : scrapeGo info fetch req uc (r + 1) g with
          | error e => rw [hrec] at h; simp at h
          | ok tr2 =>
            rw [hrec] at h
            simp at h
            rw [← h] at hnf hok ⊢
            exact ih (r + 1) tr2 hrec hnf hok
        | error msg =>
          rw [hf] at h
          by_cases hdl : containsDownloadMarker msg
          · simp [hdl] at h; rw [← h] at hok; simp at hok
          · simp [hdl, Except.map] at h
            cases hrec : scrapeGo info fetch req uc (r + 1) g with
            | error e => rw [hrec] at h; simp at h
            | ok tr2 =>
              rw [hrec] at h
              simp at h
              rw [← h] at hnf hok ⊢
              exact ih (r + 1) tr2 hrec hnf hok

/-- C7 (amended): under the playwright strategies the claim holds —
a result with `ok = true` that did not come from the
`requests`/chromedriver fallback carries at least the 500-byte
minimum, and a rendered page below the threshold is handled by exactly
the same retry escalation as a hard failure (replacing the short-page
outcome by a timeout outcome changes nothing in the chain's result).
The fallback strategies return whatever they got with no length
check (refuting the "every strategy" form, see the counterexample). -/
theorem C7_threshold_amended (info : Candidate) (config : Config) (fetch : Nat → Attempt)
    (req uc : String × Bool) :
    (∀ tr, scrape_url_async info config fetch req uc = Except.ok tr →
      tr.viaFallback = false → tr.ok = true → 500 ≤ tr.content.length) ∧
    (∀ r html, fetch r = Attempt.page html → html.length < 500 →
      scrape_url_async info config fetch req uc r =
        scrape_url_async info config (Function.update fetch r Attempt.timeout) req uc r) := by
  constructor
  · intro tr h hnf hok
    exact scrapeGo_ok_length info fetch req uc _ _ tr h hnf hok
  · intro r html hshort hlen
    unfold scrape_url_async
    cases hg : (get_site_config info.url config).max_retries - r with
    | zero =>
      rw [scrapeGo, scrapeGo, hshort, Function.update_same]
      by_cases h1 : isInmediaUrl info.url
      · simp [h1]
      · by_cases h2 : min r 3 = 3
        · simp [h1, h2]
        · simp [h1, h2, hlen]
    | succ g =>
      rw [scrapeGo, scrapeGo, hshort, Function.update_same,
        scrapeGo_congr info fetch (Function.update fetch r Attempt.timeout) req uc g (r + 1)
          (fun k hk => (Function.update_noteq (Nat.ne_of_gt hk) _ _).symm)]
      by_cases h1 : isInmediaUrl info.url
      · simp [h1]
      · by_cases h2 : min r 3 = 3
        · simp [h1, h2]
        · simp [h1, h2, hlen]

set_option maxRecDepth 100000 in
/-- Witness for the amended C7: a first attempt that renders a
500-byte page succeeds through a playwright strategy with exactly the
threshold length, and a 2-byte page at retry 0 escalates exactly as a
timeout does. -/
theorem C7_threshold_amended_witness :
    (scrape_url_async
        { url := "http://a.example/x", title := "T", source := "S", source_file := "f.md" }
        defaultConfig (fun _ => Attempt.page (String.mk (List.replicate 500 'a')))
        ("", false) ("", false) =
        Except.ok ⟨String.mk (List.replicate 500 'a'), true, 1, [], false⟩ ∧
      500 ≤ (String.mk (List.replicate 500 'a')).length) ∧
    ((fun _ => Attempt.page "hi") 0 = Attempt.page "hi" ∧ "hi".length < 500 ∧
      scrape_url_async
        { url := "http://a.example/x", title := "T", source := "S", source_file := "f.md" }
        defaultConfig (fun _ => Attempt.page "hi") ("", false) ("", false) 0 =
        scrape_url_async
          { url := "http://a.example/x", title := "T", source := "S", source_file := "f.md" }
          defaultConfig (Function.update (fun _ => Attempt.page "hi") 0 Attempt.timeout)
          ("", false) ("", false) 0) := by
  refine ⟨⟨rfl, ?_⟩, rfl, by decide, ?_⟩
  · exact (C7_threshold_amended
      { url := "http://a.example/x", title := "T", source := "S", source_file := "f.md" }
      defaultConfig (fun _ => Attempt.page (String.mk (List.replicate 500 'a')))
      ("", false) ("", false)).1 _ rfl rfl rfl
  · exact (C7_threshold_amended
      { url := "http://a.example/x", title := "T", source := "S", source_file := "f.md" }
      defaultConfig (fun _ => Attempt.page "hi") ("", false) ("", false)).2 0 "hi" rfl (by decide)

/-! ## C9 — politeness delay placement -/

/-- Claim C9 as stated is refuted on a queue containing duplicate
candidate entries: `scrape_domain_queue` guards the politeness sleep
with `urls.index(url_info) < len(urls) - 1` (scraper.py line 638), and
`list.index` returns the index of the *first* equal entry, so when the
last queue element duplicates an earlier one the guard is true and a
politeness delay is emitted after the last request of the queue. -/
theorem C9_counterexample :
    (scrape_domain_queue (fun _ => ("", false)) "2026-10-12"
        [{ url := "http://a.example/x", title := "T", source := "S", source_file := "f.md" },
         { url := "http://a.example/x", title := "T", source := "S", source_file := "f.md" }]
        { registry := emptyRegistry, store := [], success := 0, failed := 0, failed_urls := [] }).2 =
      [Event.fetchEv "http://a.example/x", Event.sleepEv,
       Event.fetchEv "http://a.example/x", Event.sleepEv] ∧
    (scrape_domain_queue (fun _ => ("", false)) "2026-10-12"
        [{ url := "http://a.example/x", title := "T", source := "S", source_file := "f.md" },
         { url := "http://a.example/x", title := "T", source := "S", source_file := "f.md" }]
        { registry := emptyRegistry, store := [], success := 0, failed := 0, failed_urls := [] }).2.getLast?
      = some Event.sleepEv := by
  exact ⟨by decide, by decide⟩

/-- The event trace of the remaining suffix of a duplicate-free queue:
every element but the queue's last is followed by one politeness
sleep. -/
theorem queueGo_events_of_nodup (fetch : Candidate → String × Bool) (now : String)
    (urls : List Candidate) (h : urls.Nodup) :
    ∀ rest pre st, urls = pre ++ rest →
      (queueGo fetch now urls rest st).2 =
        List.intersperse Event.sleepEv (rest.map (fun c => Event.fetchEv c.url)) := by
  intro rest
  induction rest with
  | nil => intro pre st _; rfl
  | cons c rest2 ih =>
    intro pre st hsplit
    have hcpre : c ∉ pre := by
      rw [hsplit, List.nodup_append] at h
      exact fun hc => h.2.2 hc (List.mem_cons_self c rest2)
    have hidx : urls.indexOf c = pre.length := by
      rw [hsplit, List.indexOf_append_of_not_mem hcpre, List.indexOf_cons_self]
      omega
    cases rest2 with
    | nil =>
      have hlen : urls.length = pre.length + 1 := by rw [hsplit]; simp
      rw [queueGo]
      simp only [hidx, hlen, Nat.add_sub_cancel, Nat.lt_irrefl, if_false, queueGo]
      simp
    | cons d rest3 =>
      have hguard : urls.indexOf c < urls.length - 1 := by
        rw [hidx, hsplit]
        simp only [List.length_append, List.length_cons]
        omega
      rw [queueGo]
      simp only [hguard, if_true]
      rw [ih (pre ++ [c]) _ (by rw [hsplit]; simp)]
      simp [List.intersperse_cons_cons]

/-- C9 (amended): for every duplicate-free queue, the politeness delay
occurs exactly between consecutive requests — the event trace is the
fetch events of the queue in order with one sleep interspersed between
each adjacent pair, hence no delay before the first or after the last
request.  (For queues whose last element duplicates an earlier entry
the code also sleeps after the last request, see the
counterexample.) -/
theorem C9_politeness_amended (fetch : Candidate → String × Bool) (now : String)
    (urls : List Candidate) (st : RunState) (h : urls.Nodup) :
    (scrape_domain_queue fetch now urls st).2 =
      List.intersperse Event.sleepEv (urls.map (fun c => Event.fetchEv c.url)) :=
  queueGo_events_of_nodup fetch now urls h urls [] st rfl

/-- Witness for the amended C9 on a concrete two-element
duplicate-free queue. -/
theorem C9_politeness_amended_witness :
    ([{ url := "http://a.example/x", title := "X", source := "S", source_file := "f.md" },
      { url := "http://a.example/y", title := "Y", source := "S", source_file := "f.md" }] :
        List Candidate).Nodup ∧
    (scrape_domain_queue (fun _ => ("", false)) "2026-10-12"
        [{ url := "http://a.example/x", title := "X", source := "S", source_file := "f.md" },
         { url := "http://a.example/y", title := "Y", source := "S", source_file := "f.md" }]
        { registry := emptyRegistry, store := [], success := 0, failed := 0, failed_urls := [] }).2 =
      [Event.fetchEv "http://a.example/x", Event.sleepEv, Event.fetchEv "http://a.example/y"] :=
  ⟨by decide,
    C9_politeness_amended (fun _ => ("", false)) "2026-10-12"
      [{ url := "http://a.example/x", title := "X", source := "S", source_file := "f.md" },
       { url := "http://a.example/y", title := "Y", source := "S", source_file := "f.md" }]
      { registry := emptyRegistry, store := [], success := 0, failed := 0, failed_urls := [] }
      (by decide)⟩

/-! ## C3 — collision-safe archive naming -/

/-- Characterisation of the suffix-probing loop: if `k` is the first
counter value at or after `c` at which the loop stops (the slot is
free, or its metadata URL matches), and the fuel covers the distance,
`findSlot` returns the `k`-th probed name, flagged `true` (already
archived) exactly when that directory exists. -/
theorem findSlot_spec (s : Store) (slug url : String) :
    ∀ fuel c k, c ≤ k → k < c + fuel →
      (∀ j, c ≤ j → j < k → s.dirExists (probeName slug j) = true ∧
        get_existing_archive_url s (probeName slug j) ≠ some url) →
      (s.dirExists (probeName slug k) = false ∨
        get_existing_archive_url s (probeName slug k) = some url) →
      findSlot s slug url fuel c = (probeName slug k, s.dirExists (probeName slug k)) := by
  intro fuel
  induction fuel with
  | zero => intro c k hck hlt _ _; omega
  | succ f ih =>
    intro c k hck hlt hmin hstop
    rcases Nat.eq_or_lt_of_le hck with heq | hlt2
    · subst heq
      rw [findSlot]
      cases hex : s.dirExists (probeName slug c) with
      | false => simp [hex]
      | true =>
        rcases hstop with hstop | hstop
        · rw [hex] at hstop; exact absurd hstop (by simp)
        · simp [hex, hstop]
    · have hc := hmin c le_rfl hlt2
      rw [findSlot, hc.1, if_pos rfl, if_neg hc.2]
      exact ih (c + 1) k hlt2 (by omega) (fun j hj1 hj2 => hmin j (by omega) hj2) hstop

/-- Claim C3: `save_archive` resolves slug collisions as described.
(1) If the slug directory exists and its metadata URL equals the
candidate's URL, the existing path is returned with `created = false`
and the store is unchanged.  (2) Otherwise (slug directory exists,
URL differs) the suffixes `slug-1, slug-2, …` are probed in order up
to the first `k` whose directory matches the URL (returned with
`created = false`, nothing written) or is unused (claimed:
`created = true` and its metadata records the candidate's URL).
(3) In particular, from an empty store, two candidates with identical
titles `"Foo"` but different URLs produce the two distinct directories
`foo` and `foo-1`, each with metadata `url` equal to its originating
candidate's URL. -/
theorem C3_save_archive (info : Candidate) (html now : String) (s : Store) (k : Nat) :
    (get_existing_archive_url s (slugify info.title) = some info.url →
      save_archive info html now s = ((slugify info.title, false), s)) ∧
    (s.dirExists (slugify info.title) = true →
      get_existing_archive_url s (slugify info.title) ≠ some info.url →
      1 ≤ k → k ≤ s.length + 1 →
      (∀ j, 1 ≤ j → j < k → s.dirExists (probeName (slugify info.title) j) = true ∧
        get_existing_archive_url s (probeName (slugify info.title) j) ≠ some info.url) →
      (s.dirExists (probeName (slugify info.title) k) = false ∨
        get_existing_archive_url s (probeName (slugify info.title) k) = some info.url) →
      save_archive info html now s =
        (if s.dirExists (probeName (slugify info.title) k) then
          ((probeName (slugify info.title) k, false), s)
        else
          ((probeName (slugify info.title) k, true),
            s.create (probeName (slugify info.title) k)
              (mkMeta info now (probeName (slugify info.title) k))))) ∧
    ((save_archive ⟨"http://a.example/x", "Foo", "s", "f"⟩ "<html>" "2026-10-12" []).1.1 = "foo" ∧
      (save_archive ⟨"http://a.example/x", "Foo", "s", "f"⟩ "<html>" "2026-10-12" []).1.2 = true ∧
      (save_archive ⟨"http://a.example/y", "Foo", "s", "f"⟩ "<html>" "2026-10-12"
          (save_archive ⟨"http://a.example/x", "Foo", "s", "f"⟩ "<html>" "2026-10-12" []).2).1.1 = "foo-1" ∧
      (save_archive ⟨"http://a.example/y", "Foo", "s", "f"⟩ "<html>" "2026-10-12"
          (save_archive ⟨"http://a.example/x", "Foo", "s", "f"⟩ "<html>" "2026-10-12" []).2).1.2 = true ∧
      get_existing_archive_url
        (save_archive ⟨"http://a.example/y", "Foo", "s", "f"⟩ "<html>" "2026-10-12"
          (save_archive ⟨"http://a.example/x", "Foo", "s", "f"⟩ "<html>" "2026-10-12" []).2).2 "foo"
        = some "http://a.example/x" ∧
      get_existing_archive_url
        (save_archive ⟨"http://a.example/y", "Foo", "s", "f"⟩ "<html>" "2026-10-12"
          (save_archive ⟨"http://a.example/x", "Foo", "s", "f"⟩ "<html>" "2026-10-12" []).2).2 "foo-1"
        = some "http://a.example/y") := by
  refine ⟨?_, ?_, ?_⟩
  · intro hmatch
    have hex : s.dirExists (slugify info.title) = true := by
      unfold get_existing_archive_url at hmatch
      unfold Store.dirExists
      cases hl : List.lookup (slugify info.title) s with
      | none => rw [hl] at hmatch; simp at hmatch
      | some v => simp
    rw [save_archive]
    simp only [hex, if_true, hmatch, if_pos rfl]
  · intro hex hne hk1 hkb hmin hstop
    rw [save_archive]
    simp only [hex, if_true, if_neg hne]
    rw [findSlot_spec s (slugify info.title) info.url (s.length + 1) 1 k hk1 (by omega)
      (fun j hj1 hj2 => hmin j hj1 hj2) hstop]
  · exact ⟨by decide, by decide, by decide, by decide, by decide, by decide⟩

/-- Witness for C3: (1) an idempotent re-save against a store already
holding the candidate's URL under its slug, and (2) a probe that
claims the free `foo-1` slot when `foo` is held by a different URL. -/
theorem C3_save_archive_witness :
    (get_existing_archive_url [("foo", some (mkMeta ⟨"u", "Foo", "s", "f"⟩ "t" "foo"))]
        (slugify "Foo") = some "u" ∧
      save_archive ⟨"u", "Foo", "s", "f"⟩ "<h>" "t"
          [("foo", some (mkMeta ⟨"u", "Foo", "s", "f"⟩ "t" "foo"))] =
        ((slugify "Foo", false), [("foo", some (mkMeta ⟨"u", "Foo", "s", "f"⟩ "t" "foo"))])) ∧
    save_archive ⟨"b", "Foo", "s", "f"⟩ "<h>" "t"
        [("foo", some (mkMeta ⟨"a", "Foo", "s", "f"⟩ "t" "foo"))] =
      ((probeName (slugify "Foo") 1, true),
        Store.create [("foo", some (mkMeta ⟨"a", "Foo", "s", "f"⟩ "t" "foo"))]
          (probeName (slugify "Foo") 1)
          (mkMeta ⟨"b", "Foo", "s", "f"⟩ "t" (probeName (slugify "Foo") 1))) := by
  refine ⟨⟨by decide, ?_⟩, ?_⟩
  · exact (C3_save_archive ⟨"u", "Foo", "s", "f"⟩ "<h>" "t"
      [("foo", some (mkMeta ⟨"u", "Foo", "s", "f"⟩ "t" "foo"))] 1).1 (by decide)
  · have h := (C3_save_archive ⟨"b", "Foo", "s", "f"⟩ "<h>" "t"
      [("foo", some (mkMeta ⟨"a", "Foo", "s", "f"⟩ "t" "foo"))] 1).2.1
      (by decide) (by decide) (by decide) (by decide)
      (fun j hj1 hj2 => absurd (Nat.lt_of_le_of_lt hj1 hj2) (Nat.lt_irrefl 1))
      (Or.inl (by decide))
    exact h.trans (by decide)

/-! ## C8 — dedup idempotence of a second scheduler run -/

/-- Inserting an entry makes its URL a member. -/
theorem containsUrl_insert_self (r : Reg) (u : String) (e : RegEntry) :
    (Reg.insert r u e).containsUrl u = true := by
  induction r with
  | nil => simp [Reg.insert, Reg.containsUrl]
  | cons p rest ih =>
    rw [Reg.insert]
    by_cases h : p.1 = u
    · simp [h, Reg.containsUrl]
    · simp only [h, if_false]
      simp only [Reg.containsUrl, List.lookup] at ih ⊢
      have : (u == p.1) = false := by simp [Ne.symm h]
      simp [this, ih]

/-- Insertion preserves existing membership. -/
theorem containsUrl_insert_of (r : Reg) (u v : String) (e : RegEntry)
    (h : r.containsUrl v = true) : (Reg.insert r u e).containsUrl v = true := by
  induction r with
  | nil => simp [Reg.containsUrl, List.lookup] at h
  | cons p rest ih =>
    rw [Reg.insert]
    by_cases hpu : p.1 = u
    · simp only [hpu, if_true]
      simp only [Reg.containsUrl, List.lookup] at h ⊢
      by_cases hv : v == u
      · simp [hv]
      · rw [hpu] at h
        simp only [hv] at h ⊢
        exact h
    · simp only [hpu, if_false]
      simp only [Reg.containsUrl, List.lookup] at h ⊢
      by_cases hv : v == p.1
      · simp [hv]
      · simp only [hv] at h ⊢
        exact ih h

/-- A failed fetch leaves the registry and the store of the run state
untouched (only the failure counters change). -/
theorem processOne_of_fail (fetch : Candidate → String × Bool) (now : String)
    (st : RunState) (c : Candidate) (h : fetchOk (fetch c) = false) :
    processOne fetch now st c =
      { st with failed := st.failed + 1, failed_urls := st.failed_urls ++ [c.url] } := by
  rw [processOne]
  simp [h]

/-- A successful fetch records the URL in the registry. -/
theorem processOne_of_ok (fetch : Candidate → String × Bool) (now : String)
    (st : RunState) (c : Candidate) (h : fetchOk (fetch c) = true) :
    (processOne fetch now st c).registry.scraped_urls.containsUrl c.url = true := by
  rw [processOne]
  simp only [h, if_true]
  exact containsUrl_insert_self _ _ _

/-- `processOne` never removes a URL from the registry. -/
theorem processOne_mono (fetch : Candidate → String × Bool) (now : String)
    (st : RunState) (c : Candidate) (v : String)
    (h : st.registry.scraped_urls.containsUrl v = true) :
    (processOne fetch now st c).registry.scraped_urls.containsUrl v = true := by
  rw [processOne]
  by_cases hok : fetchOk (fetch c)
  · simp only [hok, if_true]
    exact containsUrl_insert_of _ _ _ _ h
  · simp only [Bool.not_eq_true] at hok
    simp [hok, h]

/-- A domain queue never removes a URL from the registry. -/
theorem queueGo_mono (fetch : Candidate → String × Bool) (now : String)
    (urls : List Candidate) (v : String) :
    ∀ rest st, st.registry.scraped_urls.containsUrl v = true →
      (queueGo fetch now urls rest st).1.registry.scraped_urls.containsUrl v = true := by
  intro rest
  induction rest with
  | nil => intro st h; exact h
  | cons c rest2 ih =>
    intro st h
    rw [queueGo]
    exact ih _ (processOne_mono fetch now st c v h)

/-- After a domain queue runs, every queued URL either was fetched
successfully (and is then in the registry) or its fetch failed. -/
theorem queueGo_covers (fetch : Candidate → String × Bool) (now : String)
    (urls : List Candidate) :
    ∀ rest st c, c ∈ rest →
      fetchOk (fetch c) = false ∨
      (queueGo fetch now urls rest st).1.registry.scraped_urls.containsUrl c.url = true := by
  intro rest
  induction rest with
  | nil => intro st c h; exact absurd h (List.not_mem_nil c)
  | cons d rest2 ih =>
    intro st c h
    rcases List.mem_cons.mp h with heq | hmem
    · subst heq
      by_cases hok : fetchOk (fetch c)
      · right
        rw [queueGo]
        exact queueGo_mono fetch now urls c.url rest2 _
          (processOne_of_ok fetch now st c hok)
      · exact Or.inl (by simpa using hok)
    · rw [queueGo]
      exact ih _ c hmem

/-- A domain queue whose fetches all fail leaves the registry and the
store exactly as they were. -/
theorem queueGo_all_fail (fetch : Candidate → String × Bool) (now : String)
    (urls : List Candidate) :
    ∀ rest st, (∀ c ∈ rest, fetchOk (fetch c) = false) →
      (queueGo fetch now urls rest st).1.registry = st.registry ∧
      (queueGo fetch now urls rest st).1.store = st.store := by
  intro rest
  induction rest with
  | nil => intro st _; exact ⟨rfl, rfl⟩
  | cons c rest2 ih =>
    intro st h
    rw [queueGo, processOne_of_fail fetch now st c (h c (List.mem_cons_self c rest2))]
    exact ih _ (fun d hd => h d (List.mem_cons_of_mem c hd))

/-- Membership across one `addToGroup` step. -/
theorem mem_addToGroup (gs : List (String × List Candidate)) (d : String) (c x : Candidate) :
    (∃ g ∈ addToGroup gs d c, x ∈ g.2) ↔ (∃ g ∈ gs, x ∈ g.2) ∨ x = c := by
  induction gs with
  | nil =>
    simp [addToGroup, eq_comm]
  | cons g0 rest ih =>
    obtain ⟨d0, l0⟩ := g0
    rw [addToGroup]
    by_cases hd : d0 = d
    · subst hd
      simp only [if_pos rfl]
      constructor
      · rintro ⟨g, hg, hx⟩
        rcases List.mem_cons.mp hg with heq | hmem
        · subst heq
          rcases List.mem_append.mp hx with hx | hx
          · exact Or.inl ⟨(d0, l0), List.mem_cons_self _ _, hx⟩
          · exact Or.inr (by simpa using hx)
        · exact Or.inl ⟨g, List.mem_cons_of_mem _ hmem, hx⟩
      · rintro (⟨g, hg, hx⟩ | heq)
        · rcases List.mem_cons.mp hg with heq | hmem
          · subst heq
            exact ⟨(d0, l0 ++ [c]), List.mem_cons_self _ _, List.mem_append.mpr (Or.inl hx)⟩
          · exact ⟨g, List.mem_cons_of_mem _ hmem, hx⟩
        · exact ⟨(d0, l0 ++ [c]), List.mem_cons_self _ _,
            List.mem_append.mpr (Or.inr (by simp [heq]))⟩
    · simp only [if_neg hd]
      constructor
      · rintro ⟨g, hg, hx⟩
        rcases List.mem_cons.mp hg with heq | hmem
        · subst heq
          exact Or.inl ⟨(d0, l0), List.mem_cons_self _ _, hx⟩
        · rcases ih.mp ⟨g, hmem, hx⟩ with h | h
          · rcases h with ⟨g2, hg2, hx2⟩
            exact Or.inl ⟨g2, List.mem_cons_of_mem _ hg2, hx2⟩
          · exact Or.inr h
      · rintro (⟨g, hg, hx⟩ | heq)
        · rcases List.mem_cons.mp hg with heq | hmem
          · subst heq
            exact ⟨(d0, l0), List.mem_cons_self _ _, hx⟩
          · rcases ih.mpr (Or.inl ⟨g, hmem, hx⟩) with ⟨g2, hg2, hx2⟩
            exact ⟨g2, List.mem_cons_of_mem _ hg2, hx2⟩
        · rcases ih.mpr (Or.inr heq) with ⟨g2, hg2, hx2⟩
          exact ⟨g2, List.mem_cons_of_mem _ hg2, hx2⟩

/-- Membership across the grouping fold. -/
theorem mem_groupFold (x : Candidate) :
    ∀ (urls : List Candidate) (gs0 : List (String × List Candidate)),
      (∃ g ∈ urls.foldl (fun gs c => addToGroup gs (get_domain c.url) c) gs0, x ∈ g.2) ↔
        (∃ g ∈ gs0, x ∈ g.2) ∨ x ∈ urls := by
  intro urls
  induction urls with
  | nil => intro gs0; simp
  | cons c rest ih =>
    intro gs0
    rw [List.foldl_cons, ih, mem_addToGroup]
    constructor
    · rintro ((h | h) | h)
      · exact Or.inl h
      · exact Or.inr (by simp [h])
      · exact Or.inr (List.mem_cons_of_mem c h)
    · rintro (h | h)
      · exact Or.inl (Or.inl h)
      · rcases List.mem_cons.mp h with heq | hmem
        · exact Or.inl (Or.inr heq)
        · exact Or.inr hmem

/-- A candidate is in some group of `group_urls_by_domain urls` iff it
is in `urls`. -/
theorem mem_group_urls_by_domain (urls : List Candidate) (x : Candidate) :
    (∃ g ∈ group_urls_by_domain urls, x ∈ g.2) ↔ x ∈ urls := by
  rw [group_urls_by_domain, mem_groupFold]
  simp

/-- The per-domain fold of the scheduler never removes a URL from the
registry. -/
theorem domainFold_mono (fetch : Candidate → String × Bool) (now : String) (v : String) :
    ∀ (gs : List (String × List Candidate)) (st : RunState),
      st.registry.scraped_urls.containsUrl v = true →
      (gs.foldl (fun st d => (scrape_domain_queue fetch now d.2 st).1) st).registry.scraped_urls.containsUrl
        v = true := by
  intro gs
  induction gs with
  | nil => intro st h; exact h
  | cons g rest ih =>
    intro st h
    rw [List.foldl_cons]
    exact ih _ (queueGo_mono fetch now g.2 v g.2 st h)

/-- After the scheduler's per-domain fold, every candidate of every
group either failed its fetch or is in the registry. -/
theorem domainFold_covers (fetch : Candidate → String × Bool) (now : String) (x : Candidate) :
    ∀ (gs : List (String × List Candidate)) (st : RunState),
      (∃ g ∈ gs, x ∈ g.2) →
      fetchOk (fetch x) = false ∨
      (gs.foldl (fun st d => (scrape_domain_queue fetch now d.2 st).1) st).registry.scraped_urls.containsUrl
        x.url = true := by
  intro gs
  induction gs with
  | nil => rintro st ⟨g, hg, _⟩; exact absurd hg (List.not_mem_nil g)
  | cons g rest ih =>
    rintro st ⟨g2, hg2, hx⟩
    rcases List.mem_cons.mp hg2 with heq | hmem
    · subst heq
      rcases queueGo_covers fetch now g2.2 g2.2 st x hx with h | h
      · exact Or.inl h
      · right
        rw [List.foldl_cons]
        exact domainFold_mono fetch now x.url rest _ h
    · rw [List.foldl_cons]
      exact ih _ ⟨g2, hmem, hx⟩

/-- A per-domain fold all of whose candidates fail leaves registry and
store unchanged. -/
theorem domainFold_all_fail (fetch : Candidate → String × Bool) (now : String) :
    ∀ (gs : List (String × List Candidate)) (st : RunState),
      (∀ g ∈ gs, ∀ x ∈ g.2, fetchOk (fetch x) = false) →
      (gs.foldl (fun st d => (scrape_domain_queue fetch now d.2 st).1) st).registry = st.registry ∧
      (gs.foldl (fun st d => (scrape_domain_queue fetch now d.2 st).1) st).store = st.store := by
  intro gs
  induction gs with
  | nil => intro st _; exact ⟨rfl, rfl⟩
  | cons g rest ih =>
    intro st h
    rw [List.foldl_cons]
    have hq := queueGo_all_fail fetch now g.2 g.2 st
      (fun c hc => h g (List.mem_cons_self g rest) c hc)
    have h2 := ih ((scrape_domain_queue fetch now g.2 st).1)
      (fun g2 hg2 x hx => h g2 (List.mem_cons_of_mem g hg2) x hx)
    exact ⟨h2.1.trans hq.1, h2.2.trans hq.2⟩

/-- After one run, every candidate's URL is in the registry or its
fetch fails (fetch outcomes are a fixed function of the candidate). -/
theorem run_scraper_covers (fetch : Candidate → String × Bool) (now : String)
    (cands : List Candidate) (reg : Registry) (store : Store) (c : Candidate)
    (hc : c ∈ cands) :
    fetchOk (fetch c) = false ∨
    (run_scraper fetch now cands reg store).registry.scraped_urls.containsUrl c.url = true := by
  rw [run_scraper]
  by_cases hreg : reg.scraped_urls.containsUrl c.url = true
  · exact Or.inr (domainFold_mono fetch now c.url _ _ hreg)
  · have hnew : c ∈ filter_new_urls cands reg := by
      rw [filter_new_urls, List.mem_filter]
      exact ⟨hc, by simp [hreg]⟩
    exact domainFold_covers fetch now c _ _
      ((mem_group_urls_by_domain (filter_new_urls cands reg) c).mpr hnew)

/-- Claim C8: with per-candidate fetch outcomes fixed across runs (the
modelled determinism of the Fetcher), running the scheduler a second
time on the same candidate set and the registry and archive store the
first run produced changes neither the registry (zero new entries) nor
the archive store (zero new directories); and the second run's
pre-fetch filter removes every URL recorded in the registry — nothing
filtered in is registered. -/
theorem C8_dedup_idempotent (fetch : Candidate → String × Bool) (now now2 : String)
    (cands : List Candidate) (reg : Registry) (store : Store) :
    (run_scraper fetch now2 cands (run_scraper fetch now cands reg store).registry
        (run_scraper fetch now cands reg store).store).registry =
      (run_scraper fetch now cands reg store).registry ∧
    (run_scraper fetch now2 cands (run_scraper fetch now cands reg store).registry
        (run_scraper fetch now cands reg store).store).store =
      (run_scraper fetch now cands reg store).store ∧
    (∀ u ∈ filter_new_urls cands (run_scraper fetch now cands reg store).registry,
      (run_scraper fetch now cands reg store).registry.scraped_urls.containsUrl u.url = false) := by
  have hfiltered : ∀ u ∈ filter_new_urls cands (run_scraper fetch now cands reg store).registry,
      (run_scraper fetch now cands reg store).registry.scraped_urls.containsUrl u.url = false := by
    intro u hu
    rw [filter_new_urls, List.mem_filter] at hu
    simpa using hu.2
  have hallfail : ∀ g ∈ group_urls_by_domain
      (filter_new_urls cands (run_scraper fetch now cands reg store).registry),
      ∀ x ∈ g.2, fetchOk (fetch x) = false := by
    intro g hg x hx
    have hxnew : x ∈ filter_new_urls cands (run_scraper fetch now cands reg store).registry :=
      (mem_group_urls_by_domain _ x).mp ⟨g, hg, hx⟩
    have hxcands : x ∈ cands := by
      rw [filter_new_urls, List.mem_filter] at hxnew
      exact hxnew.1
    rcases run_scraper_covers fetch now cands reg store x hxcands with h | h
    · exact h
    · exact absurd h (by simp [hfiltered x hxnew])
  have h2 := domainFold_all_fail fetch now2
    (group_urls_by_domain (filter_new_urls cands (run_scraper fetch now cands reg store).registry))
    { registry := (run_scraper fetch now cands reg store).registry
      store := (run_scraper fetch now cands reg store).store
      success := 0, failed := 0, failed_urls := [] }
    hallfail
  constructor
  · conv_lhs => rw [run_scraper]
    exact h2.1
  · constructor
    · conv_lhs => rw [run_scraper]
      exact h2.2
    · exact hfiltered

/-- Witness for C8 at a concrete configuration: one candidate that
always fails — it stays outside the registry, is filtered into the
second run, fails again, and leaves registry and store unchanged. -/
theorem C8_dedup_idempotent_witness :
    ((run_scraper (fun _ => ("", false)) "t2"
        [{ url := "http://a.example/x", title := "T", source := "S", source_file := "f.md" }]
        (run_scraper (fun _ => ("", false)) "t1"
          [{ url := "http://a.example/x", title := "T", source := "S", source_file := "f.md" }]
          emptyRegistry []).registry
        (run_scraper (fun _ => ("", false)) "t1"
          [{ url := "http://a.example/x", title := "T", source := "S", source_file := "f.md" }]
          emptyRegistry []).store).registry =
      (run_scraper (fun _ => ("", false)) "t1"
        [{ url := "http://a.example/x", title := "T", source := "S", source_file := "f.md" }]
        emptyRegistry []).registry) ∧
    ({ url := "http://a.example/x", title := "T", source := "S", source_file := "f.md" } ∈
        filter_new_urls
          [{ url := "http://a.example/x", title := "T", source := "S", source_file := "f.md" }]
          (run_scraper (fun _ => ("", false)) "t1"
            [{ url := "http://a.example/x", title := "T", source := "S", source_file := "f.md" }]
            emptyRegistry []).registry ∧
      (run_scraper (fun _ => ("", false)) "t1"
        [{ url := "http://a.example/x", title := "T", source := "S", source_file := "f.md" }]
        emptyRegistry []).registry.scraped_urls.containsUrl "http://a.example/x" = false) :=
  ⟨(C8_dedup_idempotent (fun _ => ("", false)) "t1" "t2"
      [{ url := "http://a.example/x", title := "T", source := "S", source_file := "f.md" }]
      emptyRegistry []).1,
    by decide,
    (C8_dedup_idempotent (fun _ => ("", false)) "t1" "t2"
      [{ url := "http://a.example/x", title := "T", source := "S", source_file := "f.md" }]
      emptyRegistry []).2.2
      { url := "http://a.example/x", title := "T", source := "S", source_file := "f.md" }
      (by decide)⟩

/-! ## C10 — shape of slugify output -/

/-- `str.lower()` yields no uppercase basic-latin letter. -/
theorem toLower_not_upper (c : Char) : (Char.toLower c).isUpper = false := by
  rw [Char.toLower]
  by_cases h : Char.toNat c ≥ 65 ∧ Char.toNat c ≤ 90
  · simp only [h, if_true]
    have hvalid : Nat.isValidChar (Char.toNat c + 32) := Or.inl (by omega)
    rw [Char.ofNat, dif_pos hvalid]
    rw [Char.isUpper]
    have hval : (Char.ofNatAux (Char.toNat c + 32) hvalid).val.toNat = Char.toNat c + 32 := rfl
    have h2 : ¬((Char.ofNatAux (Char.toNat c + 32) hvalid).val ≤ 90) := by
      intro hle
      have h3 : (Char.ofNatAux (Char.toNat c + 32) hvalid).val.toNat ≤ (90 : UInt32).toNat := hle
      rw [hval] at h3
      have h90 : (90 : UInt32).toNat = 90 := rfl
      omega
    simp [h2]
  · simp only [h, if_false]
    rw [Char.isUpper]
    have h2 : ¬(c.val ≥ 65) ∨ ¬(c.val ≤ 90) := by
      by_contra hc
      push_neg at hc
      have h65 : (65 : Nat) ≤ c.val.toNat := hc.1
      have h90 : c.val.toNat ≤ (90 : Nat) := hc.2
      exact h ⟨h65, h90⟩
    rcases h2 with h2 | h2 <;> simp [h2]

/-- The head of a `dropWhile` residue falsifies the predicate. -/
theorem head?_dropWhile_false (p : Char → Bool) (l : List Char) :
    ∀ c, (l.dropWhile p).head? = some c → p c = false := by
  induction l with
  | nil => intro c h; simp [List.dropWhile] at h
  | cons a rest ih =>
    intro c h
    rw [List.dropWhile_cons] at h
    by_cases hpa : p a
    · rw [if_pos hpa] at h
      exact ih c h
    · rw [if_neg hpa] at h
      simp only [List.head?_cons, Option.some.injEq] at h
      rw [← h]
      exact Bool.of_not_eq_true hpa

/-- An initial segment shares its `head?` with the full list. -/
theorem head?_of_pre {l₁ l₂ : List Char} {c : Char} (hp : l₁ <+: l₂)
    (h : l₁.head? = some c) : l₂.head? = some c := by
  obtain ⟨t, rfl⟩ := hp
  cases l₁ with
  | nil => simp at h
  | cons a r => simpa using h

/-- `noTwoDash` chains survive reversal (the relation is symmetric). -/
theorem chain_noTwoDash_reverse {l : List Char} (h : List.Chain' noTwoDash l) :
    List.Chain' noTwoDash l.reverse := by
  rw [List.chain'_reverse]
  exact h.imp (fun a b hab hc => hab ⟨hc.2, hc.1⟩)

/-- Members contributed by `consDash`. -/
theorem mem_consDash {t : List Char} {c : Char} (h : c ∈ consDash t) :
    c = '-' ∨ c ∈ t := by
  rw [consDash] at h
  by_cases hh : t.head? = some '-'
  · rw [if_pos hh] at h; exact Or.inr h
  · rw [if_neg hh] at h
    rcases List.mem_cons.mp h with h | h
    · exact Or.inl h
    · exact Or.inr h

/-- `consDash` preserves hyphen-separation. -/
theorem chain_consDash {t : List Char} (h : List.Chain' noTwoDash t) :
    List.Chain' noTwoDash (consDash t) := by
  rw [consDash]
  by_cases hh : t.head? = some '-'
  · rw [if_pos hh]; exact h
  · rw [if_neg hh]
    rw [List.chain'_cons']
    refine ⟨fun x hx => ?_, h⟩
    intro ⟨_, hx2⟩
    exact hh (by rw [hx]; rw [hx2])

/-- Members of the collapsed list: a hyphen, or an original non-run
character. -/
theorem mem_collapseRuns (l : List Char) :
    ∀ c ∈ collapseRuns l, c = '-' ∨ (c ∈ l ∧ isDashOrSpace c = false) := by
  induction l with
  | nil => intro c h; simp [collapseRuns] at h
  | cons a rest ih =>
    intro c h
    rw [collapseRuns] at h
    by_cases hda : isDashOrSpace a
    · rw [if_pos hda] at h
      rcases mem_consDash h with h | h
      · exact Or.inl h
      · rcases ih c h with h2 | h2
        · exact Or.inl h2
        · exact Or.inr ⟨List.mem_cons_of_mem a h2.1, h2.2⟩
    · rw [if_neg hda] at h
      rcases List.mem_cons.mp h with h | h
      · subst h
        exact Or.inr ⟨List.mem_cons_self c rest, Bool.of_not_eq_true hda⟩
      · rcases ih c h with h2 | h2
        · exact Or.inl h2
        · exact Or.inr ⟨List.mem_cons_of_mem a h2.1, h2.2⟩

/-- The collapsed list never contains two adjacent hyphens. -/
theorem chain_collapseRuns (l : List Char) :
    List.Chain' noTwoDash (collapseRuns l) := by
  induction l with
  | nil => simp [collapseRuns]
  | cons a rest ih =>
    rw [collapseRuns]
    by_cases hda : isDashOrSpace a
    · rw [if_pos hda]
      exact chain_consDash ih
    · rw [if_neg hda]
      rw [List.chain'_cons']
      refine ⟨fun x hx => ?_, ih⟩
      intro ⟨h1, _⟩
      apply absurd hda
      simp only [h1, isDashOrSpace]
      simp

/-- Stripping keeps only original members. -/
theorem mem_stripDashes {l : List Char} {c : Char} (h : c ∈ stripDashes l) : c ∈ l := by
  rw [stripDashes] at h
  rw [List.mem_reverse] at h
  have h2 := (List.dropWhile_suffix (fun c => c = '-')).subset h
  rw [List.mem_reverse] at h2
  exact (List.dropWhile_suffix (fun c => c = '-')).subset h2

/-- Stripping preserves hyphen-separation. -/
theorem chain_stripDashes {l : List Char} (h : List.Chain' noTwoDash l) :
    List.Chain' noTwoDash (stripDashes l) := by
  rw [stripDashes]
  apply chain_noTwoDash_reverse
  apply List.Chain'.suffix _ (List.dropWhile_suffix (fun c => c = '-'))
  apply chain_noTwoDash_reverse
  exact List.Chain'.suffix h (List.dropWhile_suffix (fun c => c = '-'))

/-- The stripped list does not start with a hyphen. -/
theorem stripDashes_head (l : List Char) : (stripDashes l).head? ≠ some '-' := by
  intro h
  rw [stripDashes, List.head?_reverse] at h
  have hne : (l.dropWhile (· = '-')).reverse.dropWhile (· = '-') ≠ [] := by
    intro hnil
    rw [hnil] at h
    simp at h
  obtain ⟨t, ht⟩ := List.dropWhile_suffix
    (l := (l.dropWhile (· = '-')).reverse) (· = '-')
  have h2 : ((l.dropWhile (· = '-')).reverse).getLast? = some '-' := by
    rw [← ht, List.getLast?_append_of_ne_nil _ hne]
    exact h
  rw [List.getLast?_reverse] at h2
  have h3 := head?_dropWhile_false (· = '-') l '-' h2
  simp at h3

/-- The stripped list does not end with a hyphen. -/
theorem stripDashes_last (l : List Char) : (stripDashes l).getLast? ≠ some '-' := by
  intro h
  rw [stripDashes, List.getLast?_reverse] at h
  have h2 := head?_dropWhile_false (· = '-') _ '-' h
  simp at h2

/-- `rsplit("-", 1)[0]` yields an initial segment of its input. -/
theorem beforeLastDash_pre (m : List Char) : beforeLastDash m <+: m := by
  rw [beforeLastDash]
  split
  · exact ⟨[], by simp⟩
  · rename_i d rest heq
    refine ⟨d :: (m.reverse.takeWhile (fun c => !(c = '-'))).reverse, ?_⟩
    have ht : m.reverse.takeWhile (fun c => !(c = '-')) ++ (d :: rest) = m.reverse := by
      rw [← heq]
      exact List.takeWhile_append_dropWhile _ _
    have h2 := congrArg List.reverse ht
    rw [List.reverse_append, List.reverse_reverse, List.reverse_cons, List.append_assoc] at h2
    simpa using h2

/-- With no adjacent hyphens in the input, `rsplit("-", 1)[0]` does
not end with a hyphen. -/
theorem beforeLastDash_last (m : List Char) (hc : List.Chain' noTwoDash m) :
    (beforeLastDash m).getLast? ≠ some '-' := by
  rw [beforeLastDash]
  split
  · rename_i heq
    intro h
    have hmem := List.mem_of_mem_getLast? h
    rw [List.dropWhile_eq_nil_iff] at heq
    have h2 := heq '-' (List.mem_reverse.mpr hmem)
    simp at h2
  · rename_i d rest heq
    intro h
    rw [List.getLast?_reverse] at h
    have hd : d = '-' := by
      have h2 := head?_dropWhile_false (fun c => !(c = '-')) m.reverse d (by rw [heq]; rfl)
      simpa using h2
    have hchain : List.Chain' noTwoDash (d :: rest) := by
      rw [← heq]
      exact List.Chain'.suffix (chain_noTwoDash_reverse hc) (List.dropWhile_suffix _)
    rw [List.chain'_cons'] at hchain
    have h3 := hchain.1 '-' h
    rw [hd] at h3
    exact h3 ⟨rfl, rfl⟩

/-- Characters of the normalised core: hyphens or lowercase word
characters. -/
theorem slugCore_chars (l : List Char) :
    ∀ c ∈ slugCore l, c = '-' ∨ isSlugChar c = true := by
  intro c h
  rw [slugCore] at h
  have h2 := mem_stripDashes h
  rcases mem_collapseRuns _ c h2 with h3 | h3
  · exact Or.inl h3
  · right
    obtain ⟨hmem, hnd⟩ := h3
    rw [List.mem_filter] at hmem
    obtain ⟨hmap, hkeep⟩ := hmem
    rw [List.mem_map] at hmap
    obtain ⟨c0, _, rfl⟩ := hmap
    rw [isDashOrSpace] at hnd
    obtain ⟨hnd1, hnd2⟩ := Bool.or_eq_false_iff.mp hnd
    have hword : isWordChar (Char.toLower c0) = true := by
      simp only [Bool.or_eq_true] at hkeep
      rcases hkeep with (h4 | h4) | h4
      · exact h4
      · rw [h4] at hnd2
        exact absurd hnd2 (by simp)
      · rw [h4] at hnd1
        exact absurd hnd1 (by simp)
    rw [isWordChar] at hword
    simp only [Bool.or_eq_true] at hword
    rcases hword with (h5 | h5) | h5
    · rw [Char.isAlpha] at h5
      simp only [Bool.or_eq_true] at h5
      rcases h5 with h6 | h6
      · rw [toLower_not_upper c0] at h6
        exact absurd h6 (by simp)
      · rw [isSlugChar]
        simp [h6]
    · rw [isSlugChar]
      simp [h5]
    · rw [isSlugChar]
      simp [h5]

/-- The normalised core has no adjacent hyphens. -/
theorem slugCore_chain (l : List Char) : List.Chain' noTwoDash (slugCore l) :=
  chain_stripDashes (chain_collapseRuns _)

/-- The normalised core does not start with a hyphen. -/
theorem slugCore_head (l : List Char) : (slugCore l).head? ≠ some '-' :=
  stripDashes_head _

/-- The normalised core does not end with a hyphen. -/
theorem slugCore_last (l : List Char) : (slugCore l).getLast? ≠ some '-' :=
  stripDashes_last _

/-- The length-capped list is an initial segment of the core. -/
theorem slugCapped_pre (s : String) :
    (if (slugCore s.data).length > 80 then beforeLastDash ((slugCore s.data).take 80)
      else slugCore s.data) <+: slugCore s.data := by
  split
  · exact (beforeLastDash_pre _).trans ⟨(slugCore s.data).drop 80, List.take_append_drop 80 _⟩
  · exact ⟨[], by simp⟩

/-- The length-capped list fits the 80-character bound. -/
theorem slugCapped_len (s : String) :
    (if (slugCore s.data).length > 80 then beforeLastDash ((slugCore s.data).take 80)
      else slugCore s.data).length ≤ 80 := by
  split
  · rename_i hbig
    have h1 := List.IsPrefix.length_le (beforeLastDash_pre ((slugCore s.data).take 80))
    have h2 : ((slugCore s.data).take 80).length = min 80 (slugCore s.data).length :=
      List.length_take 80 _
    omega
  · rename_i hbig
    omega

/-- The length-capped list carries only slug characters. -/
theorem slugCapped_chars (s : String) :
    ∀ c ∈ (if (slugCore s.data).length > 80 then beforeLastDash ((slugCore s.data).take 80)
      else slugCore s.data), c = '-' ∨ isSlugChar c = true :=
  fun c hc => slugCore_chars s.data c ((slugCapped_pre s).sublist.subset hc)

/-- The length-capped list keeps hyphens separated. -/
theorem slugCapped_chain (s : String) :
    List.Chain' noTwoDash (if (slugCore s.data).length > 80
      then beforeLastDash ((slugCore s.data).take 80) else slugCore s.data) :=
  List.Chain'.prefix (slugCore_chain s.data) (slugCapped_pre s)

/-- The length-capped list does not start with a hyphen. -/
theorem slugCapped_head (s : String) :
    (if (slugCore s.data).length > 80 then beforeLastDash ((slugCore s.data).take 80)
      else slugCore s.data).head? ≠ some '-' :=
  fun h => slugCore_head s.data (head?_of_pre (slugCapped_pre s) h)

/-- The length-capped list does not end with a hyphen. -/
theorem slugCapped_last (s : String) :
    (if (slugCore s.data).length > 80 then beforeLastDash ((slugCore s.data).take 80)
      else slugCore s.data).getLast? ≠ some '-' := by
  split
  · exact beforeLastDash_last _
      ( List.Chain'.prefix (slugCore_chain s.data) ⟨_, List.take_append_drop 80 _⟩)
  · exact slugCore_last s.data

/-- The fixed fallback slug is well formed. -/
theorem untitled_wellFormed : wellFormedSlug "untitled".data := by
  refine ⟨by decide, ?_, by decide, by decide⟩
  show List.Chain' noTwoDash ['u', 'n', 't', 'i', 't', 'l', 'e', 'd']
  repeat any_goals refine List.chain'_cons.mpr ⟨by simp [noTwoDash], ?_⟩
  all_goals simp [noTwoDash]

/-- Claim C10: for every input string, `slugify` (with the default
`max_length = 80`) returns a non-empty string of at most 80
characters consisting only of lowercase word characters and single
hyphens, with no leading or trailing hyphen; an input whose
normalisation leaves nothing yields the fixed slug `"untitled"`. -/
theorem C10_slugify (s : String) :
    slugify s ≠ "" ∧
    (slugify s).length ≤ 80 ∧
    wellFormedSlug (slugify s).data ∧
    (slugCore s.data = [] → slugify s = "untitled") := by
  have heq : slugify s =
      if (if (slugCore s.data).length > 80 then beforeLastDash ((slugCore s.data).take 80)
          else slugCore s.data).isEmpty then "untitled"
      else String.mk (if (slugCore s.data).length > 80
          then beforeLastDash ((slugCore s.data).take 80) else slugCore s.data) := rfl
  by_cases hemp : (if (slugCore s.data).length > 80
      then beforeLastDash ((slugCore s.data).take 80) else slugCore s.data).isEmpty
  · rw [heq, if_pos hemp]
    exact ⟨by decide, by decide, untitled_wellFormed, fun _ => rfl⟩
  · rw [heq, if_neg hemp]
    have hne : (if (slugCore s.data).length > 80
        then beforeLastDash ((slugCore s.data).take 80) else slugCore s.data) ≠ [] := by
      simpa [List.isEmpty_iff] using hemp
    refine ⟨?_, slugCapped_len s, ?_, ?_⟩
    · intro hcontra
      exact hne (by simpa using congrArg String.data hcontra)
    · exact ⟨slugCapped_chars s, slugCapped_chain s, slugCapped_head s, slugCapped_last s⟩
    · intro h0
      exact absurd (by simp [h0]) hemp

/-- Witness for C10 at concrete titles. -/
theorem C10_slugify_witness :
    slugify "Hello, World!" ≠ "" ∧
    (slugCore "!!!".data = [] ∧ slugify "!!!" = "untitled") :=
  ⟨(C10_slugify "Hello, World!").1, by decide, (C10_slugify "!!!").2.2.2 (by decide)⟩

end Scraper
